import Mathlib

/-!
Verification of the personal cash-flow analyzer (`wf_analyzer.py`).

The development shallowly embeds the two components the specification
describes: the Classifier (`process_raw_transactions`) and the Ledger
Merger (the main script body, modelled here as `wf_analyzer`).  Text
cells are modelled as lists of characters, amounts as exact rationals
(the source compares amounts only by sign and equality, so the rational
model is faithful to the float comparisons it performs), DataFrames as
lists of rows, and the interactive duplicate confirmation as an injected
`Decision` value.
-/

/-- A text cell: CSV data is text, modelled as a list of characters. -/
abbrev Str := List Char

/-- The three cash-flow categories produced by `determine_cash_flow`. -/
inductive CashFlow where
  | cash_in
  | cash_out
  | cash_investments
deriving DecidableEq

/-- A processed transaction row: the five columns
`date, amount, description, vendors, cash_flow` selected at the end of
`process_raw_transactions`. -/
structure Txn where
  date : Str
  amount : ℚ
  description : Str
  vendors : Str
  cash_flow : CashFlow
deriving DecidableEq

/-- The configuration loaded from `config.json`: `patterns_wf` is an ordered
association list (Python dicts preserve insertion order) and
`cash_investments` a list of vendor names. -/
structure Config where
  patterns_wf : List (Str × List Str)
  cash_investments : List Str

/-- A raw DataFrame as produced by `pd.read_csv(..., header=None)`:
a rectangular table with `ncols` columns.  Rectangularity is assumed as a
hypothesis where a theorem needs it. -/
structure RawDF where
  ncols : Nat
  rows : List (List Str)
deriving DecidableEq

/-- The persisted ledger artifact (`processed_transactions.csv`): a header
listing the column names, and the data rows. -/
structure LedgerFile where
  cols : List Str
  rows : List Txn
deriving DecidableEq

/-- The operator's answer at the duplicate-confirmation prompt
(`input(... (y/n))`): `accept` is the answer `y`, `reject` anything else. -/
inductive Decision where
  | accept
  | reject
deriving DecidableEq

/-- The observable outcome of one run of the script: the process exit code,
the final state of the ledger artifact, and whether a write occurred. -/
structure Outcome where
  exitCode : Nat
  ledger : Option LedgerFile
  wrote : Bool
deriving DecidableEq

/-- Lower-case a text cell (models Python `str.lower()` on the ASCII
letters the data uses). -/
def lowerStr (s : Str) : Str := s.map Char.toLower

/-- Does `p` occur at the head of `h`? (helper for substring search). -/
def startsWithChars : Str → Str → Bool
  | [], _ => true
  | _ :: _, [] => false
  | c :: cs, d :: ds => c == d && startsWithChars cs ds

/-- Substring containment, models Python `pattern in description`. -/
def containsSub (pat : Str) : Str → Bool
  | [] => pat.isEmpty
  | c :: cs => startsWithChars pat (c :: cs) || containsSub pat cs

/-- Value of a string of decimal digits. -/
def natOfDigits (s : Str) : Nat := s.foldl (fun a c => a * 10 + (c.toNat - 48)) 0

/-- Split a text cell at the first decimal point, if any. -/
def splitDot : Str → Str × Option Str
  | [] => ([], none)
  | c :: cs =>
    if c = '.' then ([], some cs)
    else
      let r := splitDot cs
      (c :: r.1, r.2)

/-- Models `pd.to_numeric(col, errors='coerce')` on one cell holding a plain
signed decimal literal (the format bank exports use): an optional sign, an
integer part and an optional fractional part.  Any other cell (for example
`N/A`) coerces to NaN, modelled as `none`. -/
def parseAmount (s : Str) : Option ℚ :=
  let signed : Bool × Str :=
    match s with
    | '-' :: cs => (true, cs)
    | '+' :: cs => (false, cs)
    | cs => (false, cs)
  let ip := (splitDot signed.2).1
  let fp := (splitDot signed.2).2.getD []
  if ip.all Char.isDigit && fp.all Char.isDigit && !(ip.isEmpty && fp.isEmpty) then
    let den : Nat := 10 ^ fp.length
    let v : ℚ := mkRat (natOfDigits ip * den + natOfDigits fp) den
    some (if signed.1 then -v else v)
  else none

/-- The column-dropping step of `process_raw_transactions`: pandas
`drop(columns=existing_cols_to_drop)` removes the cells at indices 2 and 3
of every row (an index is only dropped when the column exists, i.e. when
the row is long enough to have a cell there, which the positional filter
captures). -/
def dropCols23 (row : List Str) : List Str :=
  (row.enum.filter (fun p => p.1 != 2 && p.1 != 3)).map Prod.snd

/-- How many columns remain after `drop(columns=[i for i in [2,3] if i < ncols])`. -/
def remainingCols (n : Nat) : Nat :=
  n - ((if 2 < n then 1 else 0) + (if 3 < n then 1 else 0))

/-- The loop body of `find_vendor`: first configured vendor any of whose
patterns occurs (case-insensitively) in the lowered description wins. -/
def findVendorGo (d : Str) : List (Str × List Str) → Str
  | [] => "Other".data
  | (v, pats) :: rest =>
    if pats.any (fun p => containsSub (lowerStr p) d) then v else findVendorGo d rest

/-- `find_vendor` from `process_raw_transactions`: lower-case the
description and scan the configured vendors in order. -/
def find_vendor (patterns_wf : List (Str × List Str)) (description : Str) : Str :=
  findVendorGo (lowerStr description) patterns_wf

/-- `determine_cash_flow` from `process_raw_transactions`: non-negative
amounts are `cash_in`; negative amounts are `cash_investments` when the
vendor is configured as an investment vendor, else `cash_out`. -/
def determine_cash_flow (cash_investments : List Str) (amount : ℚ) (vendor : Str) : CashFlow :=
  if 0 ≤ amount then CashFlow.cash_in
  else if vendor ∈ cash_investments then CashFlow.cash_investments
  else CashFlow.cash_out

/-- Per-row classification after the drop step: the three remaining cells
are read as `date, amount, description`; a row whose amount cell fails
numeric coercion is dropped (`dropna(subset=['amount'])`), otherwise the
vendor and cash-flow columns are computed. -/
def classifyRowCore (cfg : Config) (row : List Str) : Option Txn :=
  match row with
  | [d, a, desc] =>
    match parseAmount a with
    | none => none
    | some amt =>
      let v := find_vendor cfg.patterns_wf desc
      some ⟨d, amt, desc, v, determine_cash_flow cfg.cash_investments amt v⟩
  | _ => none

/-- `process_raw_transactions`: drop columns 2 and 3 where present, then
rename the remainder to `date, amount, description`.  Fewer than three
remaining columns yields the empty DataFrame (`some []`); more than three
makes the pandas column assignment raise a length-mismatch `ValueError`
that the script does not catch (`none`); exactly three proceeds to
row-level coercion and classification. -/
def process_raw_transactions (cfg : Config) (df : RawDF) : Option (List Txn) :=
  let n := remainingCols df.ncols
  if n < 3 then some []
  else if n = 3 then some (df.rows.filterMap (fun row => classifyRowCore cfg (dropCols23 row)))
  else none

/-- Render a natural number's decimal digits (fuel-structured so the
kernel can evaluate it). -/
def natDigitsGo : Nat → Nat → Str → Str
  | 0, _, acc => acc
  | fuel + 1, n, acc =>
    if n < 10 then Char.ofNat (48 + n) :: acc
    else natDigitsGo fuel (n / 10) (Char.ofNat (48 + n % 10) :: acc)

/-- Decimal digits of a natural number. -/
def natDigits (n : Nat) : Str := natDigitsGo (n + 1) n []

/-- A deterministic textual rendering of a rational amount, standing for
Python's `str(amount)` in the key construction.  The exact digits are
immaterial to every property below: only that the rendering is a function
of the amount alone matters. -/
def ratRepr (q : ℚ) : Str :=
  (if q.num < 0 then ['-'] else []) ++ natDigits q.num.natAbs ++ '/' :: natDigits q.den

/-- The columns used for duplicate identification (`key_cols`). -/
def keyCols : List Str := ["date".data, "amount".data, "description".data]

/-- The header of a freshly written ledger: the five columns selected by
`process_raw_transactions`. -/
def standardCols : List Str :=
  ["date".data, "amount".data, "description".data, "vendors".data, "cash_flow".data]

/-- The `_key` column: `df[key_cols].astype(str).agg('_'.join, axis=1)`,
i.e. `str(date) + "_" + str(amount) + "_" + str(description)`. -/
def keyOf (r : Txn) : Str := r.date ++ '_' :: ratRepr r.amount ++ '_' :: r.description

/-- `duplicate_keys_in_new`: the keys of the new rows whose key already
occurs among the existing rows' keys. -/
def dupKeysOf (existingRows newRows : List Txn) : List Str :=
  (newRows.filter (fun r => decide (keyOf r ∈ existingRows.map keyOf))).map keyOf

/-- `df_new_unique` in the duplicate branch: the new rows whose key is not
among the duplicate keys. -/
def uniqueOf (existingRows newRows : List Txn) : List Txn :=
  newRows.filter (fun r => decide (keyOf r ∉ dupKeysOf existingRows newRows))

/-- The main script body: given the configuration, the current state of the
ledger artifact (`none` when `processed_transactions.csv` does not exist),
the raw input file (`none` when `WF_march_april_25.csv` does not exist) and
the injected confirmation decision, produce the run's outcome.  Mirrors the
source's two branches: ledger exists (column check, raw read, processing,
empty check, duplicate detection, confirmation gate, append, save) and
ledger absent (raw read, processing, empty check, initial save). -/
def wf_analyzer (cfg : Config) (ledger : Option LedgerFile) (raw : Option RawDF)
    (d : Decision) : Outcome :=
  match ledger with
  | some L0 =>
    if ∀ c ∈ keyCols, c ∈ L0.cols then
      match raw with
      | none => ⟨0, some L0, false⟩
      | some df =>
        match process_raw_transactions cfg df with
        | none => ⟨1, some L0, false⟩
        | some out =>
          if out = [] then
            if df.rows = [] then ⟨0, some L0, false⟩ else ⟨1, some L0, false⟩
          else if dupKeysOf L0.rows out = [] then
            ⟨0, some ⟨L0.cols, L0.rows ++ out⟩, true⟩
          else
            match d with
            | Decision.reject => ⟨0, some L0, false⟩
            | Decision.accept => ⟨0, some ⟨L0.cols, L0.rows ++ uniqueOf L0.rows out⟩, true⟩
    else ⟨1, some L0, false⟩
  | none =>
    match raw with
    | none => ⟨1, none, false⟩
    | some df =>
      match process_raw_transactions cfg df with
      | none => ⟨1, none, false⟩
      | some out =>
        if out = [] then
          if df.rows = [] then ⟨0, none, false⟩ else ⟨1, none, false⟩
        else ⟨0, some ⟨standardCols, out⟩, true⟩

/-! ### Concrete scenario data (spec §8, Scenario A and variants) -/

/-- Scenario A configuration: one vendor `Costco` with pattern `costco`,
no investment vendors. -/
def cfgA : Config := ⟨[("Costco".data, ["costco".data])], []⟩

/-- A second configuration (for the configuration-independence property):
`Vanguard` both as pattern vendor and as investment vendor. -/
def cfgB : Config := ⟨[("Vanguard".data, ["vanguard".data])], ["Vanguard".data]⟩

/-- Scenario A's raw rows given with exactly three columns, the layout the
specification's scenario presupposes. -/
def raw3A : RawDF :=
  ⟨3, [["2025-03-01".data, "100.00".data, "PAYROLL DEPOSIT".data],
       ["2025-03-02".data, "-50.00".data, "COSTCO WHOLESALE".data]]⟩

/-- Scenario A's raw rows in the five-column layout the source expects
(`date, amount, extra, extra, description`). -/
def raw5A : RawDF :=
  ⟨5, [["2025-03-01".data, "100.00".data, "".data, "".data, "PAYROLL DEPOSIT".data],
       ["2025-03-02".data, "-50.00".data, "".data, "".data, "COSTCO WHOLESALE".data]]⟩

/-- A five-column raw input whose single row has the unparseable amount
cell `N/A` (spec §8, Scenario D's failing amount). -/
def rawNA : RawDF :=
  ⟨5, [["2025-03-05".data, "N/A".data, "".data, "".data, "SOME VENDOR".data]]⟩

/-- The classified payroll row of Scenario A. -/
def txnPayroll : Txn :=
  ⟨"2025-03-01".data, 100, "PAYROLL DEPOSIT".data, "Other".data, CashFlow.cash_in⟩

/-- The classified Costco row of Scenario A. -/
def txnCostco : Txn :=
  ⟨"2025-03-02".data, -50, "COSTCO WHOLESALE".data, "Costco".data, CashFlow.cash_out⟩

/-- A ledger file whose header lacks the required `description` column. -/
def ledgerBadCols : LedgerFile := ⟨["date".data, "amount".data], []⟩

/-- A well-formed ledger already holding the Costco row (spec §8,
Scenario B's prior state). -/
def ledgerCostco : LedgerFile := ⟨standardCols, [txnCostco]⟩

/-- An empty five-column raw input. -/
def rawEmpty : RawDF := ⟨5, []⟩

/-! ### Branch equations for `wf_analyzer` -/

lemma wf_some_nocols (cfg : Config) (L0 : LedgerFile) (raw : Option RawDF) (d : Decision)
    (hc : ¬ ∀ c ∈ keyCols, c ∈ L0.cols) :
    wf_analyzer cfg (some L0) raw d = ⟨1, some L0, false⟩ := by
  simp only [wf_analyzer]
  rw [if_neg hc]

lemma wf_some_noraw (cfg : Config) (L0 : LedgerFile) (d : Decision)
    (hc : ∀ c ∈ keyCols, c ∈ L0.cols) :
    wf_analyzer cfg (some L0) none d = ⟨0, some L0, false⟩ := by
  simp only [wf_analyzer]
  rw [if_pos hc]

lemma wf_some_crash (cfg : Config) (L0 : LedgerFile) (df : RawDF) (d : Decision)
    (hc : ∀ c ∈ keyCols, c ∈ L0.cols)
    (hp : process_raw_transactions cfg df = none) :
    wf_analyzer cfg (some L0) (some df) d = ⟨1, some L0, false⟩ := by
  simp only [wf_analyzer, hp]
  rw [if_pos hc]

lemma wf_some_empty (cfg : Config) (L0 : LedgerFile) (df : RawDF) (d : Decision)
    (hc : ∀ c ∈ keyCols, c ∈ L0.cols)
    (hp : process_raw_transactions cfg df = some []) :
    wf_analyzer cfg (some L0) (some df) d =
      if df.rows = [] then ⟨0, some L0, false⟩ else ⟨1, some L0, false⟩ := by
  simp only [wf_analyzer, hp]
  rw [if_pos hc, if_pos trivial]

lemma wf_some_nodup (cfg : Config) (L0 : LedgerFile) (df : RawDF) (out : List Txn) (d : Decision)
    (hc : ∀ c ∈ keyCols, c ∈ L0.cols)
    (hp : process_raw_transactions cfg df = some out) (hne : out ≠ [])
    (hd : dupKeysOf L0.rows out = []) :
    wf_analyzer cfg (some L0) (some df) d = ⟨0, some ⟨L0.cols, L0.rows ++ out⟩, true⟩ := by
  simp only [wf_analyzer, hp]
  rw [if_pos hc, if_neg hne, if_pos hd]

lemma wf_some_dup_reject (cfg : Config) (L0 : LedgerFile) (df : RawDF) (out : List Txn)
    (hc : ∀ c ∈ keyCols, c ∈ L0.cols)
    (hp : process_raw_transactions cfg df = some out) (hne : out ≠ [])
    (hd : dupKeysOf L0.rows out ≠ []) :
    wf_analyzer cfg (some L0) (some df) Decision.reject = ⟨0, some L0, false⟩ := by
  simp only [wf_analyzer, hp]
  rw [if_pos hc, if_neg hne, if_neg hd]

lemma wf_some_dup_accept (cfg : Config) (L0 : LedgerFile) (df : RawDF) (out : List Txn)
    (hc : ∀ c ∈ keyCols, c ∈ L0.cols)
    (hp : process_raw_transactions cfg df = some out) (hne : out ≠ [])
    (hd : dupKeysOf L0.rows out ≠ []) :
    wf_analyzer cfg (some L0) (some df) Decision.accept =
      ⟨0, some ⟨L0.cols, L0.rows ++ uniqueOf L0.rows out⟩, true⟩ := by
  simp only [wf_analyzer, hp]
  rw [if_pos hc, if_neg hne, if_neg hd]

lemma wf_none_noraw (cfg : Config) (d : Decision) :
    wf_analyzer cfg none none d = ⟨1, none, false⟩ := rfl

lemma wf_none_crash (cfg : Config) (df : RawDF) (d : Decision)
    (hp : process_raw_transactions cfg df = none) :
    wf_analyzer cfg none (some df) d = ⟨1, none, false⟩ := by
  simp only [wf_analyzer, hp]

lemma wf_none_empty (cfg : Config) (df : RawDF) (d : Decision)
    (hp : process_raw_transactions cfg df = some []) :
    wf_analyzer cfg none (some df) d =
      if df.rows = [] then ⟨0, none, false⟩ else ⟨1, none, false⟩ := by
  simp only [wf_analyzer, hp]
  rw [if_pos trivial]

lemma wf_none_success (cfg : Config) (df : RawDF) (d : Decision) (out : List Txn)
    (hp : process_raw_transactions cfg df = some out) (hne : out ≠ []) :
    wf_analyzer cfg none (some df) d = ⟨0, some ⟨standardCols, out⟩, true⟩ := by
  simp only [wf_analyzer, hp]
  rw [if_neg hne]

/-! ### Key coverage and absorption lemmas for the duplicate partition -/

lemma keyOf_mem_dupKeysOf {e out : List Txn} {r : Txn} (hr : r ∈ out)
    (hk : keyOf r ∈ e.map keyOf) : keyOf r ∈ dupKeysOf e out := by
  unfold dupKeysOf
  exact List.mem_map_of_mem keyOf (List.mem_filter.2 ⟨hr, by simpa using hk⟩)

lemma dupKeysOf_subset {e out : List Txn} {k : Str} (hk : k ∈ dupKeysOf e out) :
    k ∈ e.map keyOf := by
  unfold dupKeysOf at hk
  obtain ⟨r, hr, rfl⟩ := List.mem_map.1 hk
  simpa using (List.mem_filter.1 hr).2

lemma cover_append_unique (e out : List Txn) :
    ∀ r ∈ out, keyOf r ∈ (e ++ uniqueOf e out).map keyOf := by
  intro r hr
  rw [List.map_append]
  by_cases hk : keyOf r ∈ e.map keyOf
  · exact List.mem_append_left _ hk
  · refine List.mem_append_right _ (List.mem_map_of_mem keyOf ?_)
    unfold uniqueOf
    refine List.mem_filter.2 ⟨hr, ?_⟩
    simp only [decide_eq_true_eq]
    exact fun hd => hk (dupKeysOf_subset hd)

lemma merge_absorb {e out : List Txn} (hcov : ∀ r ∈ out, keyOf r ∈ e.map keyOf) :
    uniqueOf e out = [] ∧ (out ≠ [] → dupKeysOf e out ≠ []) := by
  have hdup : ∀ r ∈ out, keyOf r ∈ dupKeysOf e out :=
    fun r hr => keyOf_mem_dupKeysOf hr (hcov r hr)
  constructor
  · unfold uniqueOf
    rw [List.filter_eq_nil_iff]
    intro r hr
    simp only [decide_eq_true_eq, not_not]
    exact hdup r hr
  · intro hne hnil
    cases out with
    | nil => exact hne rfl
    | cons a t =>
      have ha := hdup a (List.mem_cons_self a t)
      rw [hnil] at ha
      exact absurd ha (List.not_mem_nil _)

lemma uniqueOf_of_dupKeysOf_nil (e out : List Txn) (h : dupKeysOf e out = []) :
    uniqueOf e out = out := by
  unfold uniqueOf
  rw [h]
  refine List.filter_eq_self.2 fun r _ => ?_
  simp

lemma wf_some_accept (cfg : Config) (L0 : LedgerFile) (df : RawDF) (out : List Txn)
    (hc : ∀ c ∈ keyCols, c ∈ L0.cols)
    (hp : process_raw_transactions cfg df = some out) (hne : out ≠ []) :
    wf_analyzer cfg (some L0) (some df) Decision.accept =
      ⟨0, some ⟨L0.cols, L0.rows ++ uniqueOf L0.rows out⟩, true⟩ := by
  by_cases hd : dupKeysOf L0.rows out = []
  · rw [wf_some_nodup cfg L0 df out Decision.accept hc hp hne hd,
      uniqueOf_of_dupKeysOf_nil _ _ hd]
  · exact wf_some_dup_accept cfg L0 df out hc hp hne hd

/-! ### Structural facts about the Classifier's output -/

lemma process_eq_filterMap {cfg : Config} {df : RawDF} {out : List Txn}
    (hp : process_raw_transactions cfg df = some out) (hne : out ≠ []) :
    out = df.rows.filterMap (fun row => classifyRowCore cfg (dropCols23 row)) := by
  unfold process_raw_transactions at hp
  by_cases h3 : remainingCols df.ncols < 3
  · rw [if_pos h3] at hp
    exact absurd (Option.some_injective _ hp).symm hne
  · rw [if_neg h3] at hp
    by_cases he : remainingCols df.ncols = 3
    · rw [if_pos he] at hp
      exact (Option.some_injective _ hp).symm
    · rw [if_neg he] at hp
      exact absurd hp (by simp)

lemma classifyRowCore_cash_flow {cfg : Config} {row : List Str} {r : Txn}
    (h : classifyRowCore cfg row = some r) :
    r.cash_flow = determine_cash_flow cfg.cash_investments r.amount r.vendors := by
  rcases row with _ | ⟨d, rest⟩
  · simp [classifyRowCore] at h
  rcases rest with _ | ⟨a, rest2⟩
  · simp [classifyRowCore] at h
  rcases rest2 with _ | ⟨desc, rest3⟩
  · simp [classifyRowCore] at h
  rcases rest3 with _ | ⟨x, t⟩
  · cases hpa : parseAmount a with
    | none => simp [classifyRowCore, hpa] at h
    | some amt =>
      simp only [classifyRowCore, hpa, Option.some.injEq] at h
      subst h
      rfl
  · simp [classifyRowCore] at h

lemma dropCols23_len5 {row : List Str} (h : row.length = 5) :
    dropCols23 row = [row.getD 0 [], row.getD 1 [], row.getD 4 []] := by
  rcases row with _ | ⟨a, _ | ⟨b, _ | ⟨c, _ | ⟨d, _ | ⟨e, _ | ⟨f, t⟩⟩⟩⟩⟩⟩ <;>
    simp only [List.length_cons, List.length_nil] at h <;> first | rfl | omega

/-! ### Claim theorems -/

/-- Claim C1, counterexample: the claim says a raw input with exactly three
columns is classified using those three columns as date, amount,
description.  In the code, `cols_to_drop_indices = [2, 3]` drops the third
column of a three-column input (its description), leaving two columns, so
classification returns the empty DataFrame instead of the two classified
rows. -/
theorem C1_counterexample_three_columns :
    process_raw_transactions cfgA raw3A = some [] ∧
    process_raw_transactions cfgA raw3A ≠ some [txnPayroll, txnCostco] := by decide

/-- Claim C1, amended: the Classifier drops the columns at indices 2 and 3
(not the columns beyond the third), so with the five-column raw layout the
source expects, the remaining columns 0, 1 and 4 are interpreted as date,
amount and description. -/
theorem C1_amended_drops_columns_two_three (cfg : Config) (df : RawDF)
    (hrect : ∀ r ∈ df.rows, r.length = df.ncols) (h5 : df.ncols = 5) :
    process_raw_transactions cfg df =
      some (df.rows.filterMap (fun row =>
        classifyRowCore cfg [row.getD 0 [], row.getD 1 [], row.getD 4 []])) := by
  unfold process_raw_transactions
  rw [h5]
  rw [if_neg (by decide : ¬ remainingCols 5 < 3), if_pos (by decide : remainingCols 5 = 3)]
  refine congrArg some (List.filterMap_congr fun row hrow => ?_)
  rw [dropCols23_len5 (h5 ▸ hrect row hrow)]

/-- Claim C1 amended, witness at the five-column Scenario A input. -/
theorem C1_amended_witness :
    process_raw_transactions cfgA raw5A =
      some (raw5A.rows.filterMap (fun row =>
        classifyRowCore cfgA [row.getD 0 [], row.getD 1 [], row.getD 4 []])) :=
  C1_amended_drops_columns_two_three cfgA raw5A (by decide) rfl

/-- Claim C2, counterexample: on the spec's Scenario A three-column raw
rows, the pipeline does not produce the two-row ledger; it exits with
code 1 and creates no ledger, because the description column was dropped
and processing returned the empty DataFrame. -/
theorem C2_counterexample_three_column_rows_fail :
    wf_analyzer cfgA none (some raw3A) Decision.accept = ⟨1, none, false⟩ := by decide

/-- Claim C2, amended: with the same two transactions given in the raw
layout the source expects (description in column 4), starting from no
prior ledger the run succeeds and writes exactly the two classified rows,
Other/cash_in then Costco/cash_out, in input order. -/
theorem C2_amended_scenarioA :
    wf_analyzer cfgA none (some raw5A) Decision.accept =
      ⟨0, some ⟨standardCols, [txnPayroll, txnCostco]⟩, true⟩ := by decide

/-- Claim C3 (confirmed): every row of the Classifier's output obeys the
cash-flow invariant: non-negative amount gives cash_in, negative amount
gives cash_investments exactly when the computed vendor is configured as
an investment vendor, and cash_out otherwise. -/
theorem C3_classification_invariant (cfg : Config) (df : RawDF) (out : List Txn)
    (hp : process_raw_transactions cfg df = some out) :
    ∀ r ∈ out,
      (0 ≤ r.amount → r.cash_flow = CashFlow.cash_in) ∧
      (r.amount < 0 → r.vendors ∈ cfg.cash_investments →
        r.cash_flow = CashFlow.cash_investments) ∧
      (r.amount < 0 → r.vendors ∉ cfg.cash_investments →
        r.cash_flow = CashFlow.cash_out) := by
  intro r hr
  by_cases hne : out = []
  · subst hne
    exact absurd hr (List.not_mem_nil r)
  · have hout := process_eq_filterMap hp hne
    rw [hout] at hr
    obtain ⟨row, hrow, hcl⟩ := List.mem_filterMap.1 hr
    rw [classifyRowCore_cash_flow hcl]
    unfold determine_cash_flow
    by_cases h0 : 0 ≤ r.amount
    · rw [if_pos h0]
      exact ⟨fun _ => rfl, fun hlt _ => absurd h0 (not_le.2 hlt),
        fun hlt _ => absurd h0 (not_le.2 hlt)⟩
    · rw [if_neg h0]
      by_cases hv : r.vendors ∈ cfg.cash_investments
      · rw [if_pos hv]
        exact ⟨fun hle => absurd hle h0, fun _ _ => rfl, fun _ hnv => absurd hv hnv⟩
      · rw [if_neg hv]
        exact ⟨fun hle => absurd hle h0, fun _ hv2 => absurd hv2 hv, fun _ _ => rfl⟩

/-- Claim C3, witness at the classified Costco row of Scenario A. -/
theorem C3_witness :
    (0 ≤ txnCostco.amount → txnCostco.cash_flow = CashFlow.cash_in) ∧
    (txnCostco.amount < 0 → txnCostco.vendors ∈ cfgA.cash_investments →
      txnCostco.cash_flow = CashFlow.cash_investments) ∧
    (txnCostco.amount < 0 → txnCostco.vendors ∉ cfgA.cash_investments →
      txnCostco.cash_flow = CashFlow.cash_out) :=
  C3_classification_invariant cfgA raw5A [txnPayroll, txnCostco] (by decide)
    txnCostco (by decide)

/-- Claim C6 (confirmed): when duplicates are found and the operator
rejects, the merge aborts cleanly: exit code 0, the ledger artifact is
exactly the prior one, and no write occurs. -/
theorem C6_reject_leaves_ledger_untouched (cfg : Config) (L0 : LedgerFile) (df : RawDF)
    (out : List Txn) (hc : ∀ c ∈ keyCols, c ∈ L0.cols)
    (hp : process_raw_transactions cfg df = some out) (hne : out ≠ [])
    (hd : dupKeysOf L0.rows out ≠ []) :
    wf_analyzer cfg (some L0) (some df) Decision.reject = ⟨0, some L0, false⟩ :=
  wf_some_dup_reject cfg L0 df out hc hp hne hd

/-- Claim C6, witness: prior ledger holds the Costco row, the new batch
repeats it, confirmation is reject. -/
theorem C6_witness :
    wf_analyzer cfgA (some ledgerCostco) (some raw5A) Decision.reject =
      ⟨0, some ledgerCostco, false⟩ :=
  C6_reject_leaves_ledger_untouched cfgA ledgerCostco raw5A [txnPayroll, txnCostco]
    (by decide) (by decide) (by decide) (by decide)

/-- Claim C7 (confirmed): when the existing ledger lacks one of the
required key columns, the run exits with code 1, the ledger artifact is
unchanged and nothing is written. -/
theorem C7_missing_columns_fatal (cfg : Config) (L0 : LedgerFile) (raw : Option RawDF)
    (d : Decision) (hc : ¬ ∀ c ∈ keyCols, c ∈ L0.cols) :
    wf_analyzer cfg (some L0) raw d = ⟨1, some L0, false⟩ :=
  wf_some_nocols cfg L0 raw d hc

/-- Claim C7, witness: a ledger whose header lacks `description`. -/
theorem C7_witness :
    wf_analyzer cfgA (some ledgerBadCols) (some raw5A) Decision.accept =
      ⟨1, some ledgerBadCols, false⟩ :=
  C7_missing_columns_fatal cfgA ledgerBadCols (some raw5A) Decision.accept (by decide)

/-- Claim C8 (confirmed): the Classifier's output is the in-order
`filterMap` of the raw rows (raw order minus dropped rows), and a
successful accept-merge produces exactly the prior rows in order followed
by a subsequence of the classified output (the accepted unique rows) in
classified order. -/
theorem C8_order_preserved (cfg : Config) (L0 : LedgerFile) (df : RawDF) (out : List Txn)
    (hc : ∀ c ∈ keyCols, c ∈ L0.cols)
    (hp : process_raw_transactions cfg df = some out) (hne : out ≠ []) :
    out = df.rows.filterMap (fun row => classifyRowCore cfg (dropCols23 row)) ∧
    ∃ uniq : List Txn, uniq.Sublist out ∧
      wf_analyzer cfg (some L0) (some df) Decision.accept =
        ⟨0, some ⟨L0.cols, L0.rows ++ uniq⟩, true⟩ := by
  refine ⟨process_eq_filterMap hp hne,
    uniqueOf L0.rows out, ?_, wf_some_accept cfg L0 df out hc hp hne⟩
  unfold uniqueOf
  exact List.filter_sublist out

/-- Claim C8, witness at Scenario B's data. -/
theorem C8_witness :
    ([txnPayroll, txnCostco] : List Txn) =
      raw5A.rows.filterMap (fun row => classifyRowCore cfgA (dropCols23 row)) ∧
    ∃ uniq : List Txn, uniq.Sublist [txnPayroll, txnCostco] ∧
      wf_analyzer cfgA (some ledgerCostco) (some raw5A) Decision.accept =
        ⟨0, some ⟨ledgerCostco.cols, ledgerCostco.rows ++ uniq⟩, true⟩ :=
  C8_order_preserved cfgA ledgerCostco raw5A [txnPayroll, txnCostco]
    (by decide) (by decide) (by decide)

/-- Claim C9, counterexample: a non-empty raw input whose only row has the
unparseable amount `N/A` yields an empty classified input, yet the
NoLedger run exits with code 1 (not 0): empty classified input is a clean
no-op only when the raw input itself was empty. -/
theorem C9_counterexample_dropped_all_rows :
    process_raw_transactions cfgA rawNA = some [] ∧ rawNA.rows ≠ [] ∧
    wf_analyzer cfgA none (some rawNA) Decision.accept = ⟨1, none, false⟩ := by decide

/-- Claim C9, amended: when no prior ledger exists and the raw input is
empty (hence the classified input is empty), the run terminates with exit
code 0 and creates no ledger file. -/
theorem C9_amended_empty_raw_noop (cfg : Config) (d : Decision) (df : RawDF)
    (hn : df.ncols ≤ 5) (h : df.rows = []) :
    wf_analyzer cfg none (some df) d = ⟨0, none, false⟩ := by
  have hp : process_raw_transactions cfg df = some [] := by
    obtain ⟨n, rows⟩ := df
    have hn5 : n ≤ 5 := hn
    have hrows : rows = [] := h
    subst hrows
    unfold process_raw_transactions
    interval_cases n <;> simp [remainingCols]
  rw [wf_none_empty cfg df d hp, if_pos h]

/-- Claim C9 amended, witness: empty five-column raw input, no prior
ledger. -/
theorem C9_amended_witness :
    wf_analyzer cfgA none (some rawEmpty) Decision.accept = ⟨0, none, false⟩ :=
  C9_amended_empty_raw_noop cfgA Decision.accept rawEmpty (by decide) rfl

/-- Claim C10 (confirmed): if the raw input is non-empty but
classification removes every row, the run exits with code 1 and the
ledger artifact — whether present or absent — is left exactly as it was,
with no write. -/
theorem C10_empty_result_fatal (cfg : Config) (led : Option LedgerFile) (df : RawDF)
    (d : Decision) (hne : df.rows ≠ [])
    (hp : process_raw_transactions cfg df = some []) :
    (wf_analyzer cfg led (some df) d).exitCode = 1 ∧
    (wf_analyzer cfg led (some df) d).ledger = led ∧
    (wf_analyzer cfg led (some df) d).wrote = false := by
  cases led with
  | none =>
    rw [wf_none_empty cfg df d hp, if_neg hne]
    exact ⟨rfl, rfl, rfl⟩
  | some L0 =>
    by_cases hc : ∀ c ∈ keyCols, c ∈ L0.cols
    · rw [wf_some_empty cfg L0 df d hc hp, if_neg hne]
      exact ⟨rfl, rfl, rfl⟩
    · rw [wf_some_nocols cfg L0 (some df) d hc]
      exact ⟨rfl, rfl, rfl⟩

/-- Claim C10, witness: the single-row `N/A`-amount input with no prior
ledger. -/
theorem C10_witness :
    (wf_analyzer cfgA none (some rawNA) Decision.accept).exitCode = 1 ∧
    (wf_analyzer cfgA none (some rawNA) Decision.accept).ledger = none ∧
    (wf_analyzer cfgA none (some rawNA) Decision.accept).wrote = false :=
  C10_empty_result_fatal cfgA none rawNA Decision.accept (by decide) (by decide)

/-! ### Configuration-independence of the identity key -/

lemma classifyRowCore_map_keyOf_config (cfg1 cfg2 : Config) (row : List Str) :
    (classifyRowCore cfg1 row).map keyOf = (classifyRowCore cfg2 row).map keyOf := by
  rcases row with _ | ⟨d, _ | ⟨a, _ | ⟨desc, _ | ⟨x, t⟩⟩⟩⟩ <;> try simp [classifyRowCore]
  cases hpa : parseAmount a <;> simp [classifyRowCore, hpa, keyOf]

lemma process_map_keyOf_config (cfg1 cfg2 : Config) (df : RawDF) (out1 out2 : List Txn)
    (h1 : process_raw_transactions cfg1 df = some out1)
    (h2 : process_raw_transactions cfg2 df = some out2) :
    out1.map keyOf = out2.map keyOf := by
  unfold process_raw_transactions at h1 h2
  by_cases h3 : remainingCols df.ncols < 3
  · rw [if_pos h3] at h1 h2
    obtain rfl := Option.some_injective _ h1
    obtain rfl := Option.some_injective _ h2
    rfl
  · rw [if_neg h3] at h1 h2
    by_cases he : remainingCols df.ncols = 3
    · rw [if_pos he] at h1 h2
      obtain rfl := Option.some_injective _ h1
      obtain rfl := Option.some_injective _ h2
      rw [List.map_filterMap, List.map_filterMap]
      exact List.filterMap_congr fun row _ =>
        classifyRowCore_map_keyOf_config cfg1 cfg2 (dropCols23 row)
    · rw [if_neg he] at h1
      exact absurd h1 (by simp)

lemma dupKeysOf_eq_filter (e out : List Txn) :
    dupKeysOf e out = (out.map keyOf).filter (fun k => decide (k ∈ e.map keyOf)) := by
  rw [List.filter_map]
  rfl

lemma uniqueOf_map_eq (e out : List Txn) :
    (uniqueOf e out).map keyOf =
      (out.map keyOf).filter (fun k => decide (k ∉ dupKeysOf e out)) := by
  rw [List.filter_map]
  rfl

/-- Claim C4 (confirmed): the duplicate/unique partition depends only on
the identity keys `(date, amount, description)`.  Classifying the same raw
batch under two different vendor configurations yields the same key
sequence, the same duplicate mask against any existing ledger, the same
duplicate-key list and the same key sequence of accepted unique rows. -/
theorem C4_partition_config_independent (L0rows : List Txn) (df : RawDF)
    (cfg1 cfg2 : Config) (out1 out2 : List Txn)
    (h1 : process_raw_transactions cfg1 df = some out1)
    (h2 : process_raw_transactions cfg2 df = some out2) :
    out1.map keyOf = out2.map keyOf ∧
    out1.map (fun r => decide (keyOf r ∈ L0rows.map keyOf)) =
      out2.map (fun r => decide (keyOf r ∈ L0rows.map keyOf)) ∧
    dupKeysOf L0rows out1 = dupKeysOf L0rows out2 ∧
    (uniqueOf L0rows out1).map keyOf = (uniqueOf L0rows out2).map keyOf := by
  have hk := process_map_keyOf_config cfg1 cfg2 df out1 out2 h1 h2
  have hmask : ∀ out : List Txn,
      out.map (fun r => decide (keyOf r ∈ L0rows.map keyOf)) =
        (out.map keyOf).map (fun k => decide (k ∈ L0rows.map keyOf)) := by
    intro out
    rw [List.map_map]
    rfl
  have hdup : dupKeysOf L0rows out1 = dupKeysOf L0rows out2 := by
    rw [dupKeysOf_eq_filter, dupKeysOf_eq_filter, hk]
  refine ⟨hk, ?_, hdup, ?_⟩
  · rw [hmask, hmask, hk]
  · rw [uniqueOf_map_eq, uniqueOf_map_eq, hdup, hk]

/-- Claim C4, witness: Scenario A's batch classified under the Costco
configuration and under the Vanguard configuration, checked against the
one-row Costco ledger. -/
theorem C4_witness :
    ([txnPayroll, txnCostco] : List Txn).map keyOf =
      ([⟨"2025-03-01".data, 100, "PAYROLL DEPOSIT".data, "Other".data, CashFlow.cash_in⟩,
        ⟨"2025-03-02".data, -50, "COSTCO WHOLESALE".data, "Other".data, CashFlow.cash_out⟩] :
          List Txn).map keyOf ∧
    ([txnPayroll, txnCostco] : List Txn).map
        (fun r => decide (keyOf r ∈ ledgerCostco.rows.map keyOf)) =
      ([⟨"2025-03-01".data, 100, "PAYROLL DEPOSIT".data, "Other".data, CashFlow.cash_in⟩,
        ⟨"2025-03-02".data, -50, "COSTCO WHOLESALE".data, "Other".data, CashFlow.cash_out⟩] :
          List Txn).map (fun r => decide (keyOf r ∈ ledgerCostco.rows.map keyOf)) ∧
    dupKeysOf ledgerCostco.rows [txnPayroll, txnCostco] =
      dupKeysOf ledgerCostco.rows
        [⟨"2025-03-01".data, 100, "PAYROLL DEPOSIT".data, "Other".data, CashFlow.cash_in⟩,
         ⟨"2025-03-02".data, -50, "COSTCO WHOLESALE".data, "Other".data, CashFlow.cash_out⟩] ∧
    (uniqueOf ledgerCostco.rows [txnPayroll, txnCostco]).map keyOf =
      (uniqueOf ledgerCostco.rows
        [⟨"2025-03-01".data, 100, "PAYROLL DEPOSIT".data, "Other".data, CashFlow.cash_in⟩,
         ⟨"2025-03-02".data, -50, "COSTCO WHOLESALE".data, "Other".data, CashFlow.cash_out⟩]).map
        keyOf :=
  C4_partition_config_independent ledgerCostco.rows raw5A cfgA cfgB
    [txnPayroll, txnCostco] _ (by decide) (by decide)

/-- Claim C5 (confirmed): if a run of the merge over a raw batch writes a
ledger, then running the merge again over the same batch (confirmation
accepted) leaves the ledger identical: every re-classified row's key is
already present, so zero rows are appended. -/
theorem C5_merge_idempotent (cfg : Config) (led0 : Option LedgerFile) (df : RawDF)
    (h : (wf_analyzer cfg led0 (some df) Decision.accept).wrote = true) :
    (wf_analyzer cfg (wf_analyzer cfg led0 (some df) Decision.accept).ledger (some df)
        Decision.accept).ledger =
      (wf_analyzer cfg led0 (some df) Decision.accept).ledger := by
  cases led0 with
  | none =>
    cases hp : process_raw_transactions cfg df with
    | none =>
      rw [wf_none_crash cfg df Decision.accept hp] at h
      exact absurd h (by simp)
    | some out =>
      by_cases hne : out = []
      · subst hne
        rw [wf_none_empty cfg df Decision.accept hp] at h
        by_cases hr : df.rows = []
        · rw [if_pos hr] at h; exact absurd h (by simp)
        · rw [if_neg hr] at h; exact absurd h (by simp)
      · rw [wf_none_success cfg df Decision.accept out hp hne]
        have hcov : ∀ r ∈ out, keyOf r ∈ (LedgerFile.mk standardCols out).rows.map keyOf :=
          fun r hr => List.mem_map_of_mem keyOf hr
        have habs := merge_absorb hcov
        have hsc : ∀ c ∈ keyCols, c ∈ standardCols := by decide
        rw [wf_some_accept cfg ⟨standardCols, out⟩ df out hsc hp hne]
        simp [habs.1]
  | some L0 =>
    by_cases hc : ∀ c ∈ keyCols, c ∈ L0.cols
    · cases hp : process_raw_transactions cfg df with
      | none =>
        rw [wf_some_crash cfg L0 df Decision.accept hc hp] at h
        exact absurd h (by simp)
      | some out =>
        by_cases hne : out = []
        · subst hne
          rw [wf_some_empty cfg L0 df Decision.accept hc hp] at h
          by_cases hr : df.rows = []
          · rw [if_pos hr] at h; exact absurd h (by simp)
          · rw [if_neg hr] at h; exact absurd h (by simp)
        · rw [wf_some_accept cfg L0 df out hc hp hne]
          have hcov := cover_append_unique L0.rows out
          have habs := merge_absorb hcov
          rw [wf_some_accept cfg ⟨L0.cols, L0.rows ++ uniqueOf L0.rows out⟩ df out hc hp hne]
          simp [habs.1]
    · rw [wf_some_nocols cfg L0 (some df) Decision.accept hc] at h
      exact absurd h (by simp)

/-- Claim C5, witness: Scenario A's batch merged into an empty state and
then merged again. -/
theorem C5_witness :
    (wf_analyzer cfgA (wf_analyzer cfgA none (some raw5A) Decision.accept).ledger (some raw5A)
        Decision.accept).ledger =
      (wf_analyzer cfgA none (some raw5A) Decision.accept).ledger :=
  C5_merge_idempotent cfgA none raw5A (by decide)
